import Mathlib

/-!
Verification of the OnlyStudies education portal (Django app `app_onlystudies`).

This file gives a shallow embedding of the pieces of the application that carry
actual logic — the unique-slug assigner of `ForumQuestion.save`, the forum
write operations (`post_answer`, question creation, the detail-view counter),
and the JSON API surface (`blog_feed_api`, `notifications_api`, the
related-posts query of `BlogPostDetailView`) — and proves the behavioural
properties stated in the specification against that embedding.

Database rows become Lean structures; querysets become lists; the default
`Meta.ordering = ['-created_at']` of the models becomes an insertion sort by
descending creation time; `save`/HTTP handlers become pure state-passing
functions.
-/

namespace OnlyStudies

/-! ### Decimal rendering of a counter

`ForumQuestion.save` builds candidate slugs with the f-string
`f"{base_slug}-{counter}"`; `decRepr` is the decimal rendering of the counter.
It is written with structural fuel so that it evaluates by kernel reduction. -/

def digitChar (d : Nat) : Char := Char.ofNat (48 + d)

def decDigits : Nat → Nat → List Char
  | _, 0 => []
  | 0, _ => []
  | fuel + 1, n + 1 => decDigits fuel ((n + 1) / 10) ++ [digitChar ((n + 1) % 10)]

def decRepr (n : Nat) : String :=
  if n = 0 then "0" else ⟨decDigits n n⟩

/-! ### `django.utils.text.slugify` (ASCII fragment)

`slugify(value)` normalises to NFKD and drops non-ASCII code points, lowercases,
deletes every character that is not a word character (`\w`), whitespace (`\s`)
or a hyphen, collapses runs of hyphens/whitespace to a single hyphen, and strips
leading/trailing hyphens and underscores.  For ASCII input the NFKD step is the
identity, so the embedding simply drops non-ASCII code points. -/

def isWordChar (c : Char) : Bool := c.isAlphanum || c = '_'

def isSpaceChar (c : Char) : Bool :=
  c = ' ' || c = '\t' || c = '\n' || c = '\r' || c = Char.ofNat 11 || c = Char.ofNat 12

def isSep (c : Char) : Bool := c = '-' || isSpaceChar c

/-- `re.sub(r"[-\s]+", "-", value)`: collapse each run of separators to one
hyphen.  The flag records whether the previous character was part of a run. -/
def collapseSeps : Bool → List Char → List Char
  | _, [] => []
  | prevSep, c :: cs =>
    if isSep c then
      if prevSep then collapseSeps true cs else '-' :: collapseSeps true cs
    else c :: collapseSeps false cs

def isStripChar (c : Char) : Bool := c = '-' || c = '_'

/-- `.strip("-_")`: drop leading and trailing hyphens/underscores. -/
def stripEnds (l : List Char) : List Char :=
  ((l.dropWhile isStripChar).reverse.dropWhile isStripChar).reverse

def slugify (s : String) : String :=
  let ascii := s.data.filter (fun c => c.toNat < 128)
  let kept := (ascii.map Char.toLower).filter (fun c => isWordChar c || isSpaceChar c || c = '-')
  ⟨stripEnds (collapseSeps false kept)⟩

/-! ### The slug probe loop of `ForumQuestion.save`

```
if not self.slug:
    base_slug = slugify(self.title)
    slug = base_slug
    counter = 1
    while ForumQuestion.objects.filter(slug=slug).exists():
        slug = f"{base_slug}-{counter}"
        counter += 1
    self.slug = slug
```

The uniqueness domain (the set of slugs currently in the table) is modelled as
a `List String`.  The loop terminates because the probed candidates are
pairwise distinct, so `|domain| + 1` iterations always suffice; `slugSearch`
carries that iteration count as structural fuel. -/

/-- The k-th probed form: the base slug itself for `k = 0`, and
`f"{base_slug}-{k}"` for `k ≥ 1`. -/
def candidate (base : String) (k : Nat) : String :=
  if k = 0 then base else base ++ "-" ++ decRepr k

def slugSearch (domain : List String) (base : String) : String → Nat → Nat → String
  | slug, _, 0 => slug
  | slug, counter, fuel + 1 =>
    if slug ∈ domain then
      slugSearch domain base (base ++ "-" ++ decRepr counter) (counter + 1) fuel
    else slug

/-- The value stored in `self.slug` by the probe loop. -/
def assignSlug (domain : List String) (base : String) : String :=
  slugSearch domain base base 1 (domain.length + 1)

/-! ### `ForumQuestion` rows and `ForumQuestion.save` -/

structure ForumQuestion where
  id : Nat
  title : String
  content : String
  authorId : Nat
  categoryId : Option Nat
  slug : String
  is_answered : Bool
  views : Int
  created_at : Nat
deriving DecidableEq

/-- `ForumQuestion.save`: when the slug field is unset (empty — Python
truthiness of a `SlugField`), derive it from the title through the probe loop;
otherwise store the row as it is.  `existingSlugs` is the current content of
the slug column. -/
def fqSave (existingSlugs : List String) (q : ForumQuestion) : ForumQuestion :=
  if q.slug = "" then
    { q with slug := assignSlug existingSlugs (slugify q.title) }
  else q

/-! ### Forum store and request handlers (`views.py`)

`ForumQuestionDetailView.get_object`, `post_answer` and `AskQuestionView` are
the three request handlers that write forum state.  A handler takes the store
and the request data and returns the new store together with the response. -/

structure ForumAnswer where
  id : Nat
  questionId : Nat
  content : String
  authorId : Nat
  is_accepted : Bool
  created_at : Nat
deriving DecidableEq

structure ForumStore where
  questions : List ForumQuestion
  answers : List ForumAnswer
deriving DecidableEq

inductive Resp where
  | notFound
  | redirect (route : String) (slugArg : Option String)
  | page (name : String)
deriving DecidableEq

/-- `get_object_or_404(ForumQuestion, slug=slug)` (modulo the 404 branch,
which the caller handles through `Option`). -/
def findQ (qs : List ForumQuestion) (slug : String) : Option ForumQuestion :=
  qs.find? (fun q => q.slug == slug)

/-- `question.save(update_fields=['views'])`: write the new views value to the
row carrying the question's primary key. -/
def writeViews (qs : List ForumQuestion) (qid : Nat) (v : Int) : List ForumQuestion :=
  qs.map (fun p => if p.id = qid then { p with views := v } else p)

/-- `question.save(update_fields=['is_answered'])` after
`question.is_answered = True`. -/
def writeAnswered (qs : List ForumQuestion) (qid : Nat) : List ForumQuestion :=
  qs.map (fun p => if p.id = qid then { p with is_answered := true } else p)

/-- `ForumQuestionDetailView.get_object`: look the question up by slug (404
when absent), then `question.views += 1; question.save(update_fields=['views'])`. -/
def question_detail (s : ForumStore) (slug : String) : ForumStore × Resp :=
  match findQ s.questions slug with
  | none => (s, Resp.notFound)
  | some q =>
    ({ s with questions := writeViews s.questions q.id (q.views + 1) },
     Resp.page "forum_question")

/-- `ForumAnswerForm.is_valid()`: `clean_content` demands at least 10 characters. -/
def answerFormValid (content : String) : Bool := 10 ≤ content.length

/-- The `post_answer` view: unauthenticated callers are redirected to login;
the question is found by slug; only a POST with a valid form creates the
answer and, when the question was unanswered, flips `is_answered`; every other
path redirects to the question detail page untouched. -/
def post_answer (s : ForumStore) (user : Option Nat) (slug : String) (method : String)
    (content : String) (newAnswerId now : Nat) : ForumStore × Resp :=
  match user with
  | none => (s, Resp.redirect "login" none)
  | some uid =>
    match findQ s.questions slug with
    | none => (s, Resp.notFound)
    | some q =>
      if method = "POST" then
        if answerFormValid content then
          let ans : ForumAnswer :=
            { id := newAnswerId, questionId := q.id, content := content,
              authorId := uid, is_accepted := false, created_at := now }
          let s1 : ForumStore := { s with answers := s.answers ++ [ans] }
          let s2 : ForumStore :=
            if q.is_answered = false then
              { s1 with questions := writeAnswered s1.questions q.id }
            else s1
          (s2, Resp.redirect "forum_question" (some slug))
        else (s, Resp.redirect "forum_question" (some slug))
      else (s, Resp.redirect "forum_question" (some slug))

/-- `ForumQuestionForm.is_valid()`: title at least 10 and content at least 20
characters. -/
def questionFormValid (title content : String) : Bool :=
  (10 ≤ title.length) && (20 ≤ content.length)

/-- `AskQuestionView` (a `LoginRequiredMixin` + `CreateView`): an
authenticated caller with a valid form creates a question whose slug field is
initially unset, so `ForumQuestion.save` derives it; then redirect to the new
question's detail page. -/
def ask_question (s : ForumStore) (user : Option Nat) (title content : String)
    (cat : Option Nat) (newId now : Nat) : ForumStore × Resp :=
  match user with
  | none => (s, Resp.redirect "login" none)
  | some uid =>
    if questionFormValid title content then
      let q0 : ForumQuestion :=
        { id := newId, title := title, content := content, authorId := uid,
          categoryId := cat, slug := "", is_answered := false, views := 0,
          created_at := now }
      let q := fqSave (s.questions.map ForumQuestion.slug) q0
      ({ s with questions := s.questions ++ [q] },
       Resp.redirect "forum_question" (some q.slug))
    else (s, Resp.page "ask_question")

/-- The operations of the program that touch forum state. -/
inductive Op where
  | detail (slug : String)
  | answer (user : Option Nat) (slug method content : String) (newAnswerId now : Nat)
  | ask (user : Option Nat) (title content : String) (cat : Option Nat) (newId now : Nat)

def stepStore (s : ForumStore) : Op → ForumStore × Resp
  | .detail slug => question_detail s slug
  | .answer u slug m c i t => post_answer s u slug m c i t
  | .ask u t c cat i n => ask_question s u t c cat i n

/-- N sequential fetches of the question detail view. -/
def iterateDetail (slug : String) : Nat → ForumStore → ForumStore
  | 0, s => s
  | n + 1, s => iterateDetail slug n (question_detail s slug).1

/-! ### Blog and notification rows, default orderings, JSON surface -/

structure Category where
  id : Nat
  name : String
  slug : String
deriving DecidableEq

structure BlogPost where
  id : Nat
  title : String
  content : String
  authorFullName : String
  authorUsername : String
  category : Option Category
  featuredImage : Option String
  slug : String
  is_published : Bool
  created_at : Nat
deriving DecidableEq

structure Notification where
  id : Nat
  userId : Nat
  title : String
  message : String
  notification_type : String
  is_read : Bool
  related_url : Option String
  created_at : Nat
deriving DecidableEq

/-- `Meta.ordering = ['-created_at']`: newest first. -/
def byNewest {α : Type} (key : α → Nat) (a b : α) : Prop := key b ≤ key a

instance {α : Type} (key : α → Nat) : DecidableRel (byNewest key) :=
  fun a b => Nat.decLe (key b) (key a)

instance {α : Type} (key : α → Nat) : IsTotal α (byNewest key) :=
  ⟨fun a b => le_total (key b) (key a)⟩

instance {α : Type} (key : α → Nat) : IsTrans α (byNewest key) :=
  ⟨fun _ _ _ h1 h2 => le_trans h2 h1⟩

/-- A `BlogPost` queryset with the model's default ordering applied. -/
def orderPostsDesc (ps : List BlogPost) : List BlogPost :=
  List.insertionSort (byNewest BlogPost.created_at) ps

/-- A `Notification` queryset with the model's default ordering applied. -/
def orderNotifsDesc (ns : List Notification) : List Notification :=
  List.insertionSort (byNewest Notification.created_at) ns

/-- An entry of the `{'blogs': [...]}` payload of `blog_feed_api`. -/
structure BlogEntry where
  id : Nat
  title : String
  content : String
  author : String
  category : String
  featured_image : Option String
  created_at : Nat
  slug : String
deriving DecidableEq

/-- Modelled from the spec: `post.featured_image.url` resolves through the
media storage configured in the project settings, which are not among the
sources; the spec fixes its contract to an absolute resource locator, i.e. a
locator rooted at the server (`MEDIA_URL` prefix `/media/`). -/
def mediaUrl (name : String) : String := "/media/" ++ name

/-- One element of `blog_data`, as assembled in the loop of `blog_feed_api`. -/
def mkBlogEntry (p : BlogPost) : BlogEntry :=
  { id := p.id
    title := p.title
    content := p.content.take 200
    author := if p.authorFullName = "" then p.authorUsername else p.authorFullName
    category := match p.category with
      | some c => c.name
      | none => "General"
    featured_image := p.featuredImage.map mediaUrl
    created_at := p.created_at
    slug := p.slug }

/-- `blog_feed_api`: `BlogPost.objects.filter(is_published=True)[:5]`,
serialised entry by entry. -/
def blog_feed_api (db : List BlogPost) : List BlogEntry :=
  (((orderPostsDesc db).filter (fun p => p.is_published)).take 5).map mkBlogEntry

/-- The foreign-key value a category reference filter compares:
the referenced primary key, or NULL. -/
def categoryRef (c : Option Category) : Option Nat := c.map Category.id

/-- The related-posts query of `BlogPostDetailView.get_context_data`:
`BlogPost.objects.filter(is_published=True, category=post.category)
.exclude(id=post.id)[:4]`.  A `None` filter value follows the ORM semantics:
it matches exactly the rows whose category reference IS NULL. -/
def related_posts (db : List BlogPost) (post : BlogPost) : List BlogPost :=
  ((orderPostsDesc db).filter
    (fun p => p.is_published && categoryRef p.category == categoryRef post.category
      && p.id != post.id)).take 4

/-- An entry of the `{'notifications': [...]}` payload of `notifications_api`. -/
structure NotifEntry where
  id : Nat
  title : String
  message : String
  notifType : String
  is_read : Bool
  created_at : Nat
  url : Option String
deriving DecidableEq

structure NotifResponse where
  status : Nat
  notifications : List NotifEntry
  error : Option String
deriving DecidableEq

def mkNotifEntry (n : Notification) : NotifEntry :=
  { id := n.id, title := n.title, message := n.message,
    notifType := n.notification_type, is_read := n.is_read,
    created_at := n.created_at, url := n.related_url }

/-- `notifications_api`: a 401 payload with an empty list and an error flag
for an unauthenticated caller; otherwise
`Notification.objects.filter(user=request.user, is_read=False)[:5]`. -/
def notifications_api (db : List Notification) (caller : Option Nat) : NotifResponse :=
  match caller with
  | none => { status := 401, notifications := [], error := some "User not authenticated" }
  | some uid =>
    { status := 200,
      notifications :=
        (((orderNotifsDesc db).filter
            (fun n => n.userId == uid && n.is_read == false)).take 5).map mkNotifEntry,
      error := none }

/-- Modelled from the spec: an absolute resource locator is rooted at the
server — its first character is the path separator. -/
def isAbsoluteLocator (s : String) : Prop := s.data.head? = some '/'

/-! ### Concrete rows used by witnesses and counterexamples -/

def sampleQuestionRow : ForumQuestion :=
  { id := 1, title := "How do I prepare for the NEET exam",
    content := "I would like advice on preparing for the NEET exam this year.",
    authorId := 7, categoryId := none, slug := "how-do-i-prepare-for-the-neet-exam",
    is_answered := false, views := 3, created_at := 10 }

def sampleStore : ForumStore :=
  { questions := [sampleQuestionRow], answers := [] }

/-- A question whose title has no slugifiable content: `slugify` maps it to
the empty string, so its first save stores an empty slug. -/
def punctuationQuestion : ForumQuestion :=
  { id := 2, title := "??????????",
    content := "Please explain this storm of question marks in detail.",
    authorId := 7, categoryId := none, slug := "", is_answered := false, views := 0,
    created_at := 11 }

def mbaQuestion : ForumQuestion :=
  { id := 3, title := "Tips for Passing Your MBA Exams",
    content := "Looking for collected advice on passing the MBA exams.",
    authorId := 7, categoryId := none, slug := "", is_answered := false, views := 0,
    created_at := 12 }

def uncategorisedPostA : BlogPost :=
  { id := 1, title := "Post A", content := "Body of post A.", authorFullName := "",
    authorUsername := "alice", category := none, featuredImage := none, slug := "post-a",
    is_published := true, created_at := 1 }

def uncategorisedPostB : BlogPost :=
  { id := 2, title := "Post B", content := "Body of post B.", authorFullName := "",
    authorUsername := "bob", category := none, featuredImage := some "blog/b.jpg",
    slug := "post-b", is_published := true, created_at := 2 }

def unpublishedPost : BlogPost :=
  { id := 3, title := "Draft", content := "Unfinished draft.", authorFullName := "",
    authorUsername := "alice", category := none, featuredImage := none, slug := "draft",
    is_published := false, created_at := 3 }

def sampleNotification : Notification :=
  { id := 1, userId := 4, title := "Course Update",
    message := "Your course has new material.", notification_type := "course",
    is_read := false, related_url := none, created_at := 5 }

/-! ### Correctness of the probe loop -/

theorem decDigits_eq : ∀ (fuel n : Nat), n ≤ fuel →
    decDigits fuel n = ((Nat.digits 10 n).map digitChar).reverse := by
  intro fuel
  induction fuel with
  | zero =>
    intro n hn
    have : n = 0 := Nat.le_zero.mp hn
    subst this
    simp [decDigits]
  | succ fuel ih =>
    intro n hn
    match n with
    | 0 => simp [decDigits]
    | n + 1 =>
      have hdiv : (n + 1) / 10 ≤ fuel := by
        have := Nat.div_lt_self (Nat.succ_pos n) (by norm_num : 1 < 10)
        omega
      show decDigits fuel ((n + 1) / 10) ++ [digitChar ((n + 1) % 10)] = _
      rw [ih _ hdiv, Nat.digits_def' (by norm_num : 1 < 10) (Nat.succ_pos n)]
      simp

theorem digitChar_inj_lt : ∀ a, a < 10 → ∀ b, b < 10 → digitChar a = digitChar b → a = b := by
  decide

theorem map_digitChar_inj : ∀ (l1 l2 : List Nat), (∀ d ∈ l1, d < 10) → (∀ d ∈ l2, d < 10) →
    l1.map digitChar = l2.map digitChar → l1 = l2 := by
  intro l1
  induction l1 with
  | nil =>
    intro l2 _ _ h
    cases l2 with
    | nil => rfl
    | cons b t2 => simp at h
  | cons a t ih =>
    intro l2 h1 h2 h
    cases l2 with
    | nil => simp at h
    | cons b t2 =>
      simp only [List.map_cons, List.cons.injEq] at h
      have hab : a = b :=
        digitChar_inj_lt a (h1 a (by simp)) b (h2 b (by simp)) h.1
      have ht : t = t2 :=
        ih t2 (fun d hd => h1 d (by simp [hd])) (fun d hd => h2 d (by simp [hd])) h.2
      rw [hab, ht]

theorem decRepr_data (n : Nat) (hn : n ≠ 0) :
    (decRepr n).data = ((Nat.digits 10 n).map digitChar).reverse := by
  unfold decRepr
  rw [if_neg hn]
  exact decDigits_eq n n le_rfl

theorem decRepr_inj {m n : Nat} (h : decRepr m = decRepr n) : m = n := by
  have hdigits : ∀ {a : Nat}, a ≠ 0 → ∀ d ∈ Nat.digits 10 a, d < 10 := by
    intro a _ d hd
    exact Nat.digits_lt_base (by norm_num) hd
  by_cases hm : m = 0 <;> by_cases hn : n = 0
  · rw [hm, hn]
  · exfalso
    have hdata := congrArg String.data h
    rw [hm, decRepr_data n hn] at hdata
    have h0 : (Nat.digits 10 n).map digitChar = ['0'] := by
      have : ((Nat.digits 10 n).map digitChar).reverse = ['0'] := hdata.symm
      rw [← List.reverse_reverse ((Nat.digits 10 n).map digitChar), this]
      rfl
    have : Nat.digits 10 n = [0] := by
      apply map_digitChar_inj _ _ (hdigits hn) (by norm_num)
      rw [h0]; rfl
    have hofd := Nat.ofDigits_digits 10 n
    rw [this] at hofd
    simp [Nat.ofDigits] at hofd
    exact hn hofd.symm
  · exfalso
    have hdata := congrArg String.data h
    rw [hn, decRepr_data m hm] at hdata
    have h0 : (Nat.digits 10 m).map digitChar = ['0'] := by
      have : ((Nat.digits 10 m).map digitChar).reverse = ['0'] := hdata
      rw [← List.reverse_reverse ((Nat.digits 10 m).map digitChar), this]
      rfl
    have : Nat.digits 10 m = [0] := by
      apply map_digitChar_inj _ _ (hdigits hm) (by norm_num)
      rw [h0]; rfl
    have hofd := Nat.ofDigits_digits 10 m
    rw [this] at hofd
    simp [Nat.ofDigits] at hofd
    exact hm hofd.symm
  · have hdata := congrArg String.data h
    rw [decRepr_data m hm, decRepr_data n hn] at hdata
    have := map_digitChar_inj _ _ (hdigits hm) (hdigits hn)
      (List.reverse_injective hdata)
    exact Nat.digits.injective 10 this

theorem decRepr_length_pos (n : Nat) : 0 < (decRepr n).length := by
  by_cases hn : n = 0
  · rw [hn]; decide
  · show 0 < (decRepr n).data.length
    rw [decRepr_data n hn]
    simp only [List.length_reverse, List.length_map]
    exact List.length_pos.mpr (Nat.digits_ne_nil_iff_ne_zero.mpr hn)

theorem candidate_injective (base : String) : Function.Injective (candidate base) := by
  intro j k h
  unfold candidate at h
  by_cases hj : j = 0 <;> by_cases hk : k = 0
  · rw [hj, hk]
  · exfalso
    rw [if_pos hj, if_neg hk] at h
    have := congrArg String.length h
    rw [String.length_append, String.length_append] at this
    have hpos := decRepr_length_pos k
    have h1 : ("-" : String).length = 1 := rfl
    omega
  · exfalso
    rw [if_neg hj, if_pos hk] at h
    have := congrArg String.length h
    rw [String.length_append, String.length_append] at this
    have hpos := decRepr_length_pos j
    have h1 : ("-" : String).length = 1 := rfl
    omega
  · rw [if_neg hj, if_neg hk] at h
    have hdata := congrArg String.data h
    simp only [String.data_append, List.append_assoc] at hdata
    have := List.append_cancel_left (List.append_cancel_left hdata)
    exact decRepr_inj (String.ext this)

theorem slugSearch_eq_candidate (domain : List String) (base : String) :
    ∀ (fuel c k : Nat), c ≤ k → candidate base k ∉ domain →
      (∀ j, c ≤ j → j < k → candidate base j ∈ domain) → k - c < fuel →
      slugSearch domain base (candidate base c) (c + 1) fuel = candidate base k := by
  intro fuel
  induction fuel with
  | zero => intro c k _ _ _ hfuel; omega
  | succ fuel ih =>
    intro c k hck hk hbelow hfuel
    by_cases hc : c = k
    · subst hc
      simp only [slugSearch, if_neg hk]
    · have hcklt : c < k := lt_of_le_of_ne hck hc
      have hcmem : candidate base c ∈ domain := hbelow c le_rfl hcklt
      have hstep : slugSearch domain base (candidate base c) (c + 1) (fuel + 1)
          = slugSearch domain base (base ++ "-" ++ decRepr (c + 1)) (c + 2) fuel := by
        simp only [slugSearch, if_pos hcmem]
      have hcand : base ++ "-" ++ decRepr (c + 1) = candidate base (c + 1) := by
        unfold candidate
        rw [if_neg (Nat.succ_ne_zero c)]
      rw [hstep, hcand]
      exact ih (c + 1) k hcklt hk (fun j hj1 hj2 => hbelow j (by omega) hj2) (by omega)

theorem exists_free_candidate (domain : List String) (base : String) :
    ∃ k, k ≤ domain.length ∧ candidate base k ∉ domain := by
  by_contra hall
  push_neg at hall
  have hsub : (Finset.range (domain.length + 1)).image (candidate base) ⊆ domain.toFinset := by
    intro s hs
    simp only [Finset.mem_image, Finset.mem_range] at hs
    obtain ⟨k, hk, rfl⟩ := hs
    exact List.mem_toFinset.mpr (hall k (by omega))
  have hcard := Finset.card_le_card hsub
  rw [Finset.card_image_of_injective _ (candidate_injective base), Finset.card_range] at hcard
  have := domain.toFinset_card_le
  omega

/-- Full characterisation of the probe loop: an absent base slug is returned
unchanged; a present one is suffixed with the first counter value (probed
sequentially from 1) whose suffixed form is absent. -/
theorem assignSlug_spec (domain : List String) (base : String) :
    (base ∉ domain → assignSlug domain base = base) ∧
    (base ∈ domain → ∃ k, 1 ≤ k ∧ assignSlug domain base = candidate base k ∧
      candidate base k ∉ domain ∧ ∀ j, 1 ≤ j → j < k → candidate base j ∈ domain) := by
  have h00 : candidate base 0 = base := by unfold candidate; rw [if_pos rfl]
  constructor
  · intro hb
    have := slugSearch_eq_candidate domain base (domain.length + 1) 0 0 le_rfl
      (by rwa [h00]) (fun j hj1 hj2 => absurd hj2 (by omega)) (by omega)
    rw [h00] at this
    exact this
  · intro hb
    obtain ⟨kb, hkb_le, hkb⟩ := exists_free_candidate domain base
    have hex : ∃ k, candidate base k ∉ domain := ⟨kb, hkb⟩
    have hkfree : candidate base (Nat.find hex) ∉ domain := Nat.find_spec hex
    have hkmin : ∀ j, j < Nat.find hex → candidate base j ∈ domain :=
      fun j hj => not_not.mp (Nat.find_min hex hj)
    have hk1 : 1 ≤ Nat.find hex := by
      rcases Nat.eq_zero_or_pos (Nat.find hex) with h0 | h1
      · exfalso
        apply hkfree
        rw [h0, h00]
        exact hb
      · exact h1
    have hkle : Nat.find hex ≤ domain.length := le_trans (Nat.find_min' hex hkb) hkb_le
    refine ⟨Nat.find hex, hk1, ?_, hkfree, fun j _ hj => hkmin j hj⟩
    have := slugSearch_eq_candidate domain base (domain.length + 1) 0 (Nat.find hex)
      (by omega) hkfree (fun j hj1 hj2 => hkmin j hj2) (by omega)
    rw [h00] at this
    exact this

theorem fqSave_slug_unset (D : List String) (q : ForumQuestion) (h : q.slug = "") :
    fqSave D q = { q with slug := assignSlug D (slugify q.title) } := by
  unfold fqSave
  rw [if_pos h]

theorem fqSave_slug_set (D : List String) (q : ForumQuestion) (h : q.slug ≠ "") :
    fqSave D q = q := by
  unfold fqSave
  rw [if_neg h]

/-! ### Helper lemmas on the forum handlers -/

theorem findQ_map (qs : List ForumQuestion) (slug : String) (f : ForumQuestion → ForumQuestion)
    (hf : ∀ p, (f p).slug = p.slug) :
    findQ (qs.map f) slug = (findQ qs slug).map f := by
  induction qs with
  | nil => rfl
  | cons a t ih =>
    unfold findQ at ih ⊢
    simp only [List.map_cons]
    cases h : (a.slug == slug) with
    | true =>
      have h2 : ((f a).slug == slug) = true := by rw [hf a]; exact h
      simp only [List.find?, h, h2, Option.map_some']
    | false =>
      have h2 : ((f a).slug == slug) = false := by rw [hf a]; exact h
      simp only [List.find?, h, h2]
      exact ih

theorem findQ_writeViews (qs : List ForumQuestion) (slug : String) (qid : Nat) (v : Int) :
    findQ (writeViews qs qid v) slug
      = (findQ qs slug).map (fun p => if p.id = qid then { p with views := v } else p) := by
  apply findQ_map
  intro p
  by_cases h : p.id = qid <;> simp [h]

theorem findQ_writeAnswered (qs : List ForumQuestion) (slug : String) (qid : Nat) :
    findQ (writeAnswered qs qid) slug
      = (findQ qs slug).map (fun p => if p.id = qid then { p with is_answered := true } else p) := by
  apply findQ_map
  intro p
  by_cases h : p.id = qid <;> simp [h]

theorem question_detail_found (s : ForumStore) (slug : String) (q : ForumQuestion)
    (hq : findQ s.questions slug = some q) :
    question_detail s slug =
      ({ s with questions := writeViews s.questions q.id (q.views + 1) },
       Resp.page "forum_question") := by
  unfold question_detail
  rw [hq]

theorem question_detail_notfound (s : ForumStore) (slug : String)
    (hq : findQ s.questions slug = none) :
    question_detail s slug = (s, Resp.notFound) := by
  unfold question_detail
  rw [hq]

theorem iterateDetail_views (slug : String) :
    ∀ (N : Nat) (s : ForumStore) (q : ForumQuestion),
      findQ s.questions slug = some q →
      findQ (iterateDetail slug N s).questions slug
        = some { q with views := q.views + (N : Int) } := by
  intro N
  induction N with
  | zero =>
    intro s q hq
    show findQ s.questions slug = _
    rw [hq]
    simp
  | succ n ih =>
    intro s q hq
    show findQ (iterateDetail slug n (question_detail s slug).1).questions slug = _
    rw [question_detail_found s slug q hq]
    have h2 : findQ (writeViews s.questions q.id (q.views + 1)) slug
        = some { q with views := q.views + 1 } := by
      rw [findQ_writeViews, hq]
      simp
    have h3 := ih { s with questions := writeViews s.questions q.id (q.views + 1) }
      { q with views := q.views + 1 } h2
    rw [h3]
    have hval : q.views + 1 + (n : Int) = q.views + ((n + 1 : Nat) : Int) := by
      push_cast
      ring
    simp only [hval]

theorem post_answer_first (s : ForumStore) (u : Nat) (slug c : String) (i t : Nat)
    (q : ForumQuestion) (hq : findQ s.questions slug = some q)
    (ha : q.is_answered = false) (hc : answerFormValid c = true) :
    (post_answer s (some u) slug "POST" c i t).1.questions
      = writeAnswered s.questions q.id := by
  unfold post_answer
  rw [hq]
  simp [hc, ha]

theorem post_answer_already (s : ForumStore) (u : Nat) (slug m c : String) (i t : Nat)
    (q : ForumQuestion) (hq : findQ s.questions slug = some q)
    (ha : q.is_answered = true) :
    (post_answer s (some u) slug m c i t).1.questions = s.questions := by
  unfold post_answer
  rw [hq]
  by_cases hm : m = "POST"
  · by_cases hv : answerFormValid c = true
    · simp [hm, hv, ha]
    · simp [hm, hv]
  · simp [hm]

theorem post_answer_questions_cases (s : ForumStore) (u : Option Nat) (slug m c : String)
    (i t : Nat) :
    (post_answer s u slug m c i t).1.questions = s.questions ∨
    ∃ qid, (post_answer s u slug m c i t).1.questions = writeAnswered s.questions qid := by
  unfold post_answer
  cases u with
  | none => exact Or.inl rfl
  | some uid =>
    cases hfind : findQ s.questions slug with
    | none => exact Or.inl rfl
    | some q =>
      by_cases hm : m = "POST"
      · by_cases hv : answerFormValid c = true
        · by_cases ha : q.is_answered = false
          · exact Or.inr ⟨q.id, by simp [hm, hv, ha]⟩
          · exact Or.inl (by simp [hm, hv, ha])
        · exact Or.inl (by simp [hm, hv])
      · exact Or.inl (by simp [hm])

theorem ask_question_questions_cases (s : ForumStore) (u : Option Nat)
    (title content : String) (cat : Option Nat) (newId now : Nat) :
    (ask_question s u title content cat newId now).1.questions = s.questions ∨
    ∃ q, (ask_question s u title content cat newId now).1.questions = s.questions ++ [q] := by
  unfold ask_question
  cases u with
  | none => exact Or.inl rfl
  | some uid =>
    by_cases hv : questionFormValid title content = true
    · right
      refine ⟨fqSave (s.questions.map ForumQuestion.slug)
        { id := newId, title := title, content := content, authorId := uid,
          categoryId := cat, slug := "", is_answered := false, views := 0,
          created_at := now }, ?_⟩
      simp [hv]
    · exact Or.inl (by simp [hv])

theorem writeViews_getElem? (qs : List ForumQuestion) (qid : Nat) (v : Int) (i : Nat) :
    (writeViews qs qid v)[i]?
      = qs[i]?.map (fun p => if p.id = qid then { p with views := v } else p) := by
  unfold writeViews
  simp

theorem writeAnswered_getElem? (qs : List ForumQuestion) (qid : Nat) (i : Nat) :
    (writeAnswered qs qid)[i]?
      = qs[i]?.map (fun p => if p.id = qid then { p with is_answered := true } else p) := by
  unfold writeAnswered
  simp

/-- Row `i` of the question table keeps its identity across any operation, and
an `is_answered = true` flag is never cleared by any operation. -/
theorem step_keeps_answered (s : ForumStore) (op : Op) (i : Nat)
    (q q' : ForumQuestion) (hq : s.questions[i]? = some q)
    (hq' : ((stepStore s op).1.questions)[i]? = some q') :
    q'.id = q.id ∧ (q.is_answered = true → q'.is_answered = true) := by
  cases op with
  | detail slug =>
    have hq2 : ((question_detail s slug).1.questions)[i]? = some q' := hq'
    cases hfind : findQ s.questions slug with
    | none =>
      rw [question_detail_notfound s slug hfind] at hq2
      rw [hq] at hq2
      cases hq2
      exact ⟨rfl, fun h => h⟩
    | some qf =>
      simp only [question_detail_found s slug qf hfind] at hq2
      rw [writeViews_getElem?, hq] at hq2
      simp only [Option.map_some', Option.some.injEq] at hq2
      by_cases hid : q.id = qf.id
      · rw [if_pos hid] at hq2
        cases hq2
        exact ⟨rfl, fun h => h⟩
      · rw [if_neg hid] at hq2
        cases hq2
        exact ⟨rfl, fun h => h⟩
  | answer u slug m c j t =>
    have hq2 : ((post_answer s u slug m c j t).1.questions)[i]? = some q' := hq'
    rcases post_answer_questions_cases s u slug m c j t with hcase | ⟨qid, hcase⟩
    · rw [hcase, hq] at hq2
      cases hq2
      exact ⟨rfl, fun h => h⟩
    · rw [hcase, writeAnswered_getElem?, hq] at hq2
      simp only [Option.map_some', Option.some.injEq] at hq2
      by_cases hid : q.id = qid
      · rw [if_pos hid] at hq2
        cases hq2
        exact ⟨rfl, fun _ => rfl⟩
      · rw [if_neg hid] at hq2
        cases hq2
        exact ⟨rfl, fun h => h⟩
  | ask u title content cat newId now =>
    have hq2 : ((ask_question s u title content cat newId now).1.questions)[i]? = some q' := hq'
    rcases ask_question_questions_cases s u title content cat newId now with hcase | ⟨nq, hcase⟩
    · rw [hcase, hq] at hq2
      cases hq2
      exact ⟨rfl, fun h => h⟩
    · obtain ⟨hlen, _⟩ := List.getElem?_eq_some.mp hq
      rw [hcase, List.getElem?_append_left hlen, hq] at hq2
      cases hq2
      exact ⟨rfl, fun h => h⟩

/-- No operation ever decreases the views counter of an existing row
(primary keys assumed unique, as the store guarantees). -/
theorem step_views_mono (s : ForumStore) (op : Op)
    (hids : (s.questions.map ForumQuestion.id).Nodup) (i : Nat)
    (q q' : ForumQuestion) (hq : s.questions[i]? = some q)
    (hq' : ((stepStore s op).1.questions)[i]? = some q') :
    q.views ≤ q'.views := by
  cases op with
  | detail slug =>
    have hq2 : ((question_detail s slug).1.questions)[i]? = some q' := hq'
    cases hfind : findQ s.questions slug with
    | none =>
      rw [question_detail_notfound s slug hfind] at hq2
      rw [hq] at hq2
      cases hq2
      exact le_refl _
    | some qf =>
      simp only [question_detail_found s slug qf hfind] at hq2
      rw [writeViews_getElem?, hq] at hq2
      simp only [Option.map_some', Option.some.injEq] at hq2
      by_cases hid : q.id = qf.id
      · obtain ⟨hlen, hval⟩ := List.getElem?_eq_some.mp hq
        have hqmem : q ∈ s.questions := hval ▸ List.getElem_mem hlen
        have hfmem : qf ∈ s.questions := List.mem_of_find?_eq_some hfind
        have hqqf : q = qf := List.inj_on_of_nodup_map hids hqmem hfmem hid
        rw [if_pos hid] at hq2
        cases hq2
        show q.views ≤ qf.views + 1
        rw [hqqf]
        omega
      · rw [if_neg hid] at hq2
        cases hq2
        exact le_refl _
  | answer u slug m c j t =>
    have hq2 : ((post_answer s u slug m c j t).1.questions)[i]? = some q' := hq'
    rcases post_answer_questions_cases s u slug m c j t with hcase | ⟨qid, hcase⟩
    · rw [hcase, hq] at hq2
      cases hq2
      exact le_refl _
    · rw [hcase, writeAnswered_getElem?, hq] at hq2
      simp only [Option.map_some', Option.some.injEq] at hq2
      by_cases hid : q.id = qid
      · rw [if_pos hid] at hq2
        cases hq2
        exact le_refl _
      · rw [if_neg hid] at hq2
        cases hq2
        exact le_refl _
  | ask u title content cat newId now =>
    have hq2 : ((ask_question s u title content cat newId now).1.questions)[i]? = some q' := hq'
    rcases ask_question_questions_cases s u title content cat newId now with hcase | ⟨nq, hcase⟩
    · rw [hcase, hq] at hq2
      cases hq2
      exact le_refl _
    · obtain ⟨hlen, _⟩ := List.getElem?_eq_some.mp hq
      rw [hcase, List.getElem?_append_left hlen, hq] at hq2
      cases hq2
      exact le_refl _

/-! ### Helper lemmas on the serialised read views -/

theorem mem_orderPostsDesc {p : BlogPost} {db : List BlogPost} :
    p ∈ orderPostsDesc db ↔ p ∈ db :=
  (List.perm_insertionSort (byNewest BlogPost.created_at) db).mem_iff

theorem pairwise_orderPostsDesc (db : List BlogPost) :
    (orderPostsDesc db).Pairwise (byNewest BlogPost.created_at) :=
  List.sorted_insertionSort (byNewest BlogPost.created_at) db

theorem mem_orderNotifsDesc {n : Notification} {db : List Notification} :
    n ∈ orderNotifsDesc db ↔ n ∈ db :=
  (List.perm_insertionSort (byNewest Notification.created_at) db).mem_iff

theorem pairwise_orderNotifsDesc (db : List Notification) :
    (orderNotifsDesc db).Pairwise (byNewest Notification.created_at) :=
  List.sorted_insertionSort (byNewest Notification.created_at) db

theorem blog_feed_mem {db : List BlogPost} {e : BlogEntry} (he : e ∈ blog_feed_api db) :
    ∃ p, p ∈ db ∧ p.is_published = true ∧ e = mkBlogEntry p := by
  unfold blog_feed_api at he
  obtain ⟨p, hp, rfl⟩ := List.mem_map.mp he
  have hp2 := List.take_subset 5 _ hp
  have hp3 := List.mem_filter.mp hp2
  exact ⟨p, mem_orderPostsDesc.mp hp3.1, hp3.2, rfl⟩

theorem blog_feed_pairwise (db : List BlogPost) :
    (blog_feed_api db).Pairwise (fun a b => b.created_at ≤ a.created_at) := by
  unfold blog_feed_api
  apply List.Pairwise.map
  · intro a b hr
    exact hr
  · exact List.Pairwise.sublist (List.take_sublist 5 _)
      ((pairwise_orderPostsDesc db).filter _)

theorem notifications_auth_mem {db : List Notification} {uid : Nat} {e : NotifEntry}
    (he : e ∈ (notifications_api db (some uid)).notifications) :
    ∃ n, n ∈ db ∧ n.userId = uid ∧ n.is_read = false ∧ e = mkNotifEntry n := by
  unfold notifications_api at he
  obtain ⟨n, hn, rfl⟩ := List.mem_map.mp he
  have hn2 := List.take_subset 5 _ hn
  have hn3 := List.mem_filter.mp hn2
  have hcond := hn3.2
  simp only [Bool.and_eq_true, beq_iff_eq] at hcond
  exact ⟨n, mem_orderNotifsDesc.mp hn3.1, hcond.1, hcond.2, rfl⟩

theorem notifications_auth_pairwise (db : List Notification) (uid : Nat) :
    (notifications_api db (some uid)).notifications.Pairwise
      (fun a b => b.created_at ≤ a.created_at) := by
  unfold notifications_api
  apply List.Pairwise.map
  · intro a b hr
    exact hr
  · exact List.Pairwise.sublist (List.take_sublist 5 _)
      ((pairwise_orderNotifsDesc db).filter _)

/-! ### The claims -/

/-- Claim C1: creating a `ForumQuestion` with title `T` and no preset slug
assigns the slugified base form of `T` when it is absent from the domain `D`
of existing slugs, and otherwise the first form `base-1`, `base-2`, `base-3`,
… (probed sequentially starting at 1) absent from `D`; the result is a
function of `(T, D)`, hence deterministic.  With an empty domain the title
"Tips for Passing Your MBA Exams" yields `tips-for-passing-your-mba-exams`,
and a second creation with the identical title yields
`tips-for-passing-your-mba-exams-1`. -/
theorem C1_unique_slug_assignment (T : String) (D : List String) (q : ForumQuestion)
    (hT : q.title = T) (hslug : q.slug = "") :
    ((slugify T ∉ D → (fqSave D q).slug = slugify T) ∧
      (slugify T ∈ D → ∃ k, 1 ≤ k ∧ (fqSave D q).slug = candidate (slugify T) k ∧
        candidate (slugify T) k ∉ D ∧ ∀ j, 1 ≤ j → j < k → candidate (slugify T) j ∈ D)) ∧
    (T = "Tips for Passing Your MBA Exams" →
      (D = [] → (fqSave D q).slug = "tips-for-passing-your-mba-exams") ∧
      (D = ["tips-for-passing-your-mba-exams"] →
        (fqSave D q).slug = "tips-for-passing-your-mba-exams-1")) := by
  have hbase : (fqSave D q).slug = assignSlug D (slugify T) := by
    rw [fqSave_slug_unset D q hslug, hT]
  obtain ⟨habsent, hpresent⟩ := assignSlug_spec D (slugify T)
  refine ⟨⟨?_, ?_⟩, ?_⟩
  · intro h
    rw [hbase]
    exact habsent h
  · intro h
    obtain ⟨k, hk1, heq, hfree, hbelow⟩ := hpresent h
    exact ⟨k, hk1, by rw [hbase]; exact heq, hfree, hbelow⟩
  · intro hTeq
    constructor
    · intro hD
      rw [hbase, hTeq, hD]
      decide
    · intro hD
      rw [hbase, hTeq, hD]
      decide

theorem C1_unique_slug_assignment_witness :
    (fqSave [] mbaQuestion).slug = "tips-for-passing-your-mba-exams" ∧
    (fqSave ["tips-for-passing-your-mba-exams"] mbaQuestion).slug
      = "tips-for-passing-your-mba-exams-1" :=
  ⟨((C1_unique_slug_assignment "Tips for Passing Your MBA Exams" [] mbaQuestion
      rfl rfl).2 rfl).1 rfl,
   ((C1_unique_slug_assignment "Tips for Passing Your MBA Exams"
      ["tips-for-passing-your-mba-exams"] mbaQuestion rfl rfl).2 rfl).2 rfl⟩

/-- Claim C2 as stated is false on the code: `uncategorisedPostA` is published
and has no category, yet its related-posts set is not empty — the other
uncategorised published post appears, because a NULL category filter matches
exactly the rows whose category reference IS NULL. -/
theorem C2_counterexample :
    uncategorisedPostA.is_published = true ∧ uncategorisedPostA.category = none ∧
    related_posts [uncategorisedPostA, uncategorisedPostB] uncategorisedPostA
      = [uncategorisedPostB] := by
  decide

/-- Claim C2 amended: for every published post whose category reference is
empty, the related-posts set consists of up to four other published posts
whose category reference is likewise empty — never a categorised or
unpublished post and never the post itself (so not the set of all published
posts), but not necessarily the empty set. -/
theorem C2_related_posts_no_category (db : List BlogPost) (post : BlogPost)
    (hcat : post.category = none) :
    (related_posts db post).length ≤ 4 ∧
    ∀ p ∈ related_posts db post,
      p ∈ db ∧ p.is_published = true ∧ p.category = none ∧ p.id ≠ post.id := by
  constructor
  · unfold related_posts
    exact List.length_take_le 4 _
  · intro p hp
    unfold related_posts at hp
    have hp2 := List.take_subset 4 _ hp
    have hp3 := List.mem_filter.mp hp2
    have hcond := hp3.2
    simp only [Bool.and_eq_true, beq_iff_eq, bne_iff_ne, ne_eq] at hcond
    refine ⟨mem_orderPostsDesc.mp hp3.1, hcond.1.1, ?_, hcond.2⟩
    have hrefs := hcond.1.2
    rw [hcat] at hrefs
    unfold categoryRef at hrefs
    simpa using hrefs

theorem C2_related_posts_no_category_witness :
    (related_posts [uncategorisedPostA, uncategorisedPostB] uncategorisedPostA).length ≤ 4 ∧
    (uncategorisedPostB ∈ [uncategorisedPostA, uncategorisedPostB] ∧
      uncategorisedPostB.is_published = true ∧ uncategorisedPostB.category = none ∧
      uncategorisedPostB.id ≠ uncategorisedPostA.id) :=
  ⟨(C2_related_posts_no_category [uncategorisedPostA, uncategorisedPostB]
      uncategorisedPostA rfl).1,
   (C2_related_posts_no_category [uncategorisedPostA, uncategorisedPostB]
      uncategorisedPostA rfl).2 uncategorisedPostB (by decide)⟩

/-- Claim C3: the notifications endpoint answers an unauthenticated caller
with status 401, an empty list and an error flag; an authenticated caller
receives at most 5 entries, each derived from one of the caller's own unread
notifications (never another user's and never an already-read one), newest
first. -/
theorem C3_notifications_api_contract :
    (∀ db : List Notification, notifications_api db none
        = { status := 401, notifications := [], error := some "User not authenticated" }) ∧
    (∀ (db : List Notification) (uid : Nat),
      (notifications_api db (some uid)).status = 200 ∧
      (notifications_api db (some uid)).notifications.length ≤ 5 ∧
      (∀ e ∈ (notifications_api db (some uid)).notifications,
        ∃ n, n ∈ db ∧ n.userId = uid ∧ n.is_read = false ∧ e = mkNotifEntry n ∧
          e.is_read = false) ∧
      (notifications_api db (some uid)).notifications.Pairwise
        (fun a b => b.created_at ≤ a.created_at)) := by
  refine ⟨fun db => rfl,
    fun db uid => ⟨rfl, ?_, ?_, notifications_auth_pairwise db uid⟩⟩
  · show ((((orderNotifsDesc db).filter _).take 5).map mkNotifEntry).length ≤ 5
    rw [List.length_map]
    exact List.length_take_le 5 _
  · intro e he
    obtain ⟨n, hmem, huid, hread, rfl⟩ := notifications_auth_mem he
    exact ⟨n, hmem, huid, hread, rfl, hread⟩

theorem C3_notifications_api_contract_witness :
    notifications_api [sampleNotification] none
      = { status := 401, notifications := [], error := some "User not authenticated" } ∧
    (notifications_api [sampleNotification] (some 4)).status = 200 ∧
    (∃ n, n ∈ [sampleNotification] ∧ n.userId = 4 ∧ n.is_read = false ∧
      mkNotifEntry sampleNotification = mkNotifEntry n ∧
      (mkNotifEntry sampleNotification).is_read = false) :=
  ⟨C3_notifications_api_contract.1 [sampleNotification],
   (C3_notifications_api_contract.2 [sampleNotification] 4).1,
   (C3_notifications_api_contract.2 [sampleNotification] 4).2.2.1
     (mkNotifEntry sampleNotification) (by decide)⟩

/-- Claim C4: the blog feed endpoint returns at most 5 entries whatever the
store holds, every entry is derived from a post with `is_published = true`
(never an unpublished one), and the entries are ordered newest-created-first. -/
theorem C4_blog_feed_api_contract (db : List BlogPost) :
    (blog_feed_api db).length ≤ 5 ∧
    (∀ e ∈ blog_feed_api db, ∃ p, p ∈ db ∧ p.is_published = true ∧ e = mkBlogEntry p) ∧
    (blog_feed_api db).Pairwise (fun a b => b.created_at ≤ a.created_at) := by
  refine ⟨?_, fun e he => blog_feed_mem he, blog_feed_pairwise db⟩
  unfold blog_feed_api
  rw [List.length_map]
  exact List.length_take_le 5 _

set_option maxRecDepth 4096 in
theorem C4_blog_feed_api_contract_witness :
    (blog_feed_api [uncategorisedPostA, unpublishedPost]).length ≤ 5 ∧
    (∃ p, p ∈ [uncategorisedPostA, unpublishedPost] ∧ p.is_published = true ∧
      mkBlogEntry uncategorisedPostA = mkBlogEntry p) :=
  ⟨(C4_blog_feed_api_contract [uncategorisedPostA, unpublishedPost]).1,
   (C4_blog_feed_api_contract [uncategorisedPostA, unpublishedPost]).2.1
     (mkBlogEntry uncategorisedPostA) (by decide)⟩

/-- Claim C5: posting the first answer to an unanswered question flips its
`is_answered` flag from false to true; posting a further answer to an already
answered question leaves the flag (and the whole question row) as it is; and
no operation of the program ever turns an `is_answered = true` flag back to
false (rows keep their identity positionally across every operation). -/
theorem C5_is_answered_transitions :
    (∀ (s : ForumStore) (u : Nat) (slug c : String) (i t : Nat) (q : ForumQuestion),
      findQ s.questions slug = some q → q.is_answered = false → answerFormValid c = true →
      findQ (post_answer s (some u) slug "POST" c i t).1.questions slug
        = some { q with is_answered := true }) ∧
    (∀ (s : ForumStore) (u : Nat) (slug c : String) (i t : Nat) (q : ForumQuestion),
      findQ s.questions slug = some q → q.is_answered = true →
      findQ (post_answer s (some u) slug "POST" c i t).1.questions slug = some q) ∧
    (∀ (s : ForumStore) (op : Op) (i : Nat) (q q' : ForumQuestion),
      s.questions[i]? = some q → ((stepStore s op).1.questions)[i]? = some q' →
      q'.id = q.id ∧ (q.is_answered = true → q'.is_answered = true)) := by
  refine ⟨?_, ?_, fun s op i q q' hq hq' => step_keeps_answered s op i q q' hq hq'⟩
  · intro s u slug c i t q hq ha hc
    rw [post_answer_first s u slug c i t q hq ha hc, findQ_writeAnswered, hq]
    simp
  · intro s u slug c i t q hq ha
    rw [post_answer_already s u slug "POST" c i t q hq ha, hq]

theorem C5_is_answered_transitions_witness :
    findQ (post_answer sampleStore (some 9) "how-do-i-prepare-for-the-neet-exam" "POST"
        "Focus on the official syllabus." 1 20).1.questions
        "how-do-i-prepare-for-the-neet-exam"
      = some { sampleQuestionRow with is_answered := true } :=
  C5_is_answered_transitions.1 sampleStore 9 "how-do-i-prepare-for-the-neet-exam"
    "Focus on the official syllabus." 1 20 sampleQuestionRow (by decide) rfl (by decide)

/-- Claim C6: N sequential fetches of a question's detail view increase its
views counter by exactly N (one increment per request, with no deduplication
by viewer identity), and no operation of the program ever decreases the views
counter of an existing row (primary keys unique, as the store guarantees). -/
theorem C6_views_counter :
    (∀ (s : ForumStore) (slug : String) (q : ForumQuestion) (N : Nat),
      findQ s.questions slug = some q →
      findQ (iterateDetail slug N s).questions slug
        = some { q with views := q.views + (N : Int) }) ∧
    (∀ (s : ForumStore) (op : Op), (s.questions.map ForumQuestion.id).Nodup →
      ∀ (i : Nat) (q q' : ForumQuestion),
        s.questions[i]? = some q → ((stepStore s op).1.questions)[i]? = some q' →
        q.views ≤ q'.views) :=
  ⟨fun s slug q N hq => iterateDetail_views slug N s q hq,
   fun s op hids i q q' hq hq' => step_views_mono s op hids i q q' hq hq'⟩

theorem C6_views_counter_witness :
    findQ (iterateDetail "how-do-i-prepare-for-the-neet-exam" 3 sampleStore).questions
        "how-do-i-prepare-for-the-neet-exam"
      = some { sampleQuestionRow with views := sampleQuestionRow.views + ((3 : Nat) : Int) } :=
  C6_views_counter.1 sampleStore "how-do-i-prepare-for-the-neet-exam"
    sampleQuestionRow 3 (by decide)

/-- Claim C7: every blog-feed entry's featured-image field carries the
absolute resource locator of the post's featured image when the post has one,
and is empty (null) otherwise. -/
theorem C7_featured_image_field (db : List BlogPost) (e : BlogEntry)
    (he : e ∈ blog_feed_api db) :
    ∃ p, p ∈ db ∧ e = mkBlogEntry p ∧
      (p.featuredImage = none → e.featured_image = none) ∧
      (∀ name, p.featuredImage = some name →
        e.featured_image = some (mediaUrl name) ∧ isAbsoluteLocator (mediaUrl name)) := by
  obtain ⟨p, hmem, hpub, rfl⟩ := blog_feed_mem he
  refine ⟨p, hmem, rfl, ?_, ?_⟩
  · intro h
    show p.featuredImage.map mediaUrl = none
    rw [h]
    rfl
  · intro name h
    constructor
    · show p.featuredImage.map mediaUrl = some (mediaUrl name)
      rw [h]
      rfl
    · show ("/media/" ++ name).data.head? = some '/'
      rw [String.data_append]
      rfl

set_option maxRecDepth 4096 in
theorem C7_featured_image_field_witness :
    ∃ p, p ∈ [uncategorisedPostB] ∧ mkBlogEntry uncategorisedPostB = mkBlogEntry p ∧
      (p.featuredImage = none → (mkBlogEntry uncategorisedPostB).featured_image = none) ∧
      (∀ name, p.featuredImage = some name →
        (mkBlogEntry uncategorisedPostB).featured_image = some (mediaUrl name) ∧
          isAbsoluteLocator (mediaUrl name)) :=
  C7_featured_image_field [uncategorisedPostB] (mkBlogEntry uncategorisedPostB) (by decide)

/-- Claim C8 as stated is false on the code: a question whose title slugifies
to the empty string stores an empty slug at its first save, and the next save
recomputes the slug — the empty base now collides with the question's own
row, so the probe loop stores "-1" instead.  First save into an empty table,
then a second save of the same row, changes the stored slug. -/
theorem C8_counterexample :
    (fqSave [] punctuationQuestion).slug = "" ∧
    (fqSave [(fqSave [] punctuationQuestion).slug] (fqSave [] punctuationQuestion)).slug
      = "-1" := by
  decide

/-- Claim C8 amended: the slug is derived from the title by the probe loop at
any save where the stored slug is empty — in particular at the first save —
and for every question whose stored slug is non-empty (every title with
slugifiable content) every subsequent save, including after edits to the
title, leaves the row and hence the slug unchanged.  (Only a question whose
stored slug is empty re-runs the derivation at later saves.) -/
theorem C8_slug_computed_once :
    (∀ (D : List String) (q : ForumQuestion), q.slug = "" →
      (fqSave D q).slug = assignSlug D (slugify q.title)) ∧
    (∀ (D : List String) (q : ForumQuestion), q.slug ≠ "" → fqSave D q = q) := by
  constructor
  · intro D q h
    rw [fqSave_slug_unset D q h]
  · intro D q h
    exact fqSave_slug_set D q h

theorem C8_slug_computed_once_witness :
    (fqSave [] mbaQuestion).slug = assignSlug [] (slugify mbaQuestion.title) ∧
    fqSave ["tips-for-passing-your-mba-exams"]
        { mbaQuestion with slug := "tips-for-passing-your-mba-exams" }
      = { mbaQuestion with slug := "tips-for-passing-your-mba-exams" } :=
  ⟨C8_slug_computed_once.1 [] mbaQuestion rfl,
   C8_slug_computed_once.2 ["tips-for-passing-your-mba-exams"]
     { mbaQuestion with slug := "tips-for-passing-your-mba-exams" } (by decide)⟩

/-- Claim C9: a first save with a non-empty caller-supplied slug performs no
normalisation and no uniqueness probing — the supplied slug is stored exactly
as given, even when it already occurs in the domain (there only the store's
unique constraint could reject the write). -/
theorem C9_preset_slug_kept (D : List String) (q : ForumQuestion) (s : String)
    (hs : q.slug = s) (hne : s ≠ "") :
    (fqSave D q).slug = s ∧ fqSave D q = q := by
  have h : q.slug ≠ "" := by rw [hs]; exact hne
  exact ⟨by rw [fqSave_slug_set D q h, hs], fqSave_slug_set D q h⟩

theorem C9_preset_slug_kept_witness :
    (fqSave ["My Preset Slug"] { mbaQuestion with slug := "My Preset Slug" }).slug
      = "My Preset Slug" :=
  (C9_preset_slug_kept ["My Preset Slug"] { mbaQuestion with slug := "My Preset Slug" }
    "My Preset Slug" rfl (by decide)).1

/-- Claim C10: for an authenticated caller and an existing question slug, a
non-POST request to the answer endpoint redirects to the question's detail
view and leaves the store entirely unchanged — no `ForumAnswer` row is
created and `is_answered` is untouched. -/
theorem C10_nonpost_is_noop (s : ForumStore) (u : Nat) (slug m c : String) (i t : Nat)
    (q : ForumQuestion) (hm : m ≠ "POST") (hq : findQ s.questions slug = some q) :
    post_answer s (some u) slug m c i t
      = (s, Resp.redirect "forum_question" (some slug)) := by
  unfold post_answer
  simp only [hq]
  rw [if_neg hm]

theorem C10_nonpost_is_noop_witness :
    post_answer sampleStore (some 9) "how-do-i-prepare-for-the-neet-exam" "GET"
        "Focus on the official syllabus." 1 20
      = (sampleStore, Resp.redirect "forum_question"
          (some "how-do-i-prepare-for-the-neet-exam")) :=
  C10_nonpost_is_noop sampleStore 9 "how-do-i-prepare-for-the-neet-exam" "GET"
    "Focus on the official syllabus." 1 20 sampleQuestionRow (by decide) (by decide)

end OnlyStudies
